import Mathlib

/-!
Verification of the streaming audio pipeline of a handheld music player.

The development embeds, in Lean, the data model and the operations of the
player core (`src/player.c`) and of the internet-radio engine
(`src/radio.c`): the circular PCM buffer, the audio output callback, the
seek path, the chunk resampler, the file loader, the ICY metadata parser,
the HTTP redirect handling and the radio audio ring buffer.  Machine
integers are modelled as `Nat`/`Int`, C arrays as Lean lists, and the
pthread-based concurrency as explicit state passing: every mutation a C
function performs on the global `player`/`radio` context is returned as a
new value of an explicit state record.

Samples are interleaved stereo 16-bit integers; one frame is a pair of
samples (left, right), matching `AUDIO_CHANNELS == 2` in the source.
-/

/-- Number of interleaved channels, `AUDIO_CHANNELS` in `player.c`. -/
def AUDIO_CHANNELS : Nat := 2

/-- One stereo frame: the pair of a left and a right 16-bit sample.
The C code stores frames as two consecutive `int16_t` values. -/
def Frame : Type := Int × Int

instance : DecidableEq Frame := by
  unfold Frame
  infer_instance

instance : Inhabited Frame := ⟨((0 : Int), (0 : Int))⟩

/-- Model of `memcpy(&dst[pos], src, n)` over an array viewed as a list:
overwrite the elements of `dst` starting at index `pos` with the elements
of `src`, one by one.  Positions outside `dst` are ignored (C would be
undefined there; all uses in this file stay in bounds). -/
def listCopy {α : Type} : List α → Nat → List α → List α
  | dst, _, [] => dst
  | dst, pos, a :: rest => listCopy (dst.set pos a) (pos + 1) rest

/-- Fixed-capacity circular buffer of interleaved stereo frames,
`CircularBuffer` in the source.  The backing `int16_t*` array is modelled
as a list of frames of length `capacity`; the mutex is realized by the
explicit state passing. -/
structure CircularBuffer where
  buffer : List Frame
  capacity : Nat
  write_pos : Nat
  read_pos : Nat
  available : Nat
deriving DecidableEq

/-- Model of `circular_buffer_init`: allocate `capacity_frames` frames and
zero the cursors.  (The C `malloc` leaves the sample bytes arbitrary; the
model picks zeros, which no claim depends on.) -/
def circular_buffer_init (capacity_frames : Nat) : CircularBuffer :=
  { buffer := List.replicate capacity_frames ((0 : Int), (0 : Int))
    capacity := capacity_frames
    write_pos := 0
    read_pos := 0
    available := 0 }

/-- Model of `circular_buffer_clear`: reset the cursors, keep the storage. -/
def circular_buffer_clear (cb : CircularBuffer) : CircularBuffer :=
  { cb with write_pos := 0, read_pos := 0, available := 0 }

/-- Model of `circular_buffer_available`: snapshot of the count. -/
def circular_buffer_available (cb : CircularBuffer) : Nat :=
  cb.available

/-- Model of `circular_buffer_write`: write at most `frames` frames of
`data`, saturating at the free space, wrapping at the end of the backing
array.  Returns the new buffer and the number of frames written. -/
def circular_buffer_write (cb : CircularBuffer) (data : List Frame) (frames : Nat) :
    CircularBuffer × Nat :=
  let space := cb.capacity - cb.available
  let to_write := if frames < space then frames else space
  if to_write = 0 then (cb, 0)
  else
    let first_part0 := cb.capacity - cb.write_pos
    let first_part := if first_part0 > to_write then to_write else first_part0
    let buf1 := listCopy cb.buffer cb.write_pos (data.take first_part)
    let second_part := to_write - first_part
    let buf2 := if second_part > 0 then
        listCopy buf1 0 ((data.drop first_part).take second_part)
      else buf1
    ({ cb with buffer := buf2
               write_pos := (cb.write_pos + to_write) % cb.capacity
               available := cb.available + to_write },
     to_write)

/-- Model of `circular_buffer_read`: read at most `frames` frames,
wrapping at the end of the backing array.  Returns the new buffer and the
frames read (the data written into the output pointer). -/
def circular_buffer_read (cb : CircularBuffer) (frames : Nat) :
    CircularBuffer × List Frame :=
  let to_read := if frames < cb.available then frames else cb.available
  if to_read = 0 then (cb, [])
  else
    let first_part0 := cb.capacity - cb.read_pos
    let first_part := if first_part0 > to_read then to_read else first_part0
    let out1 := (cb.buffer.drop cb.read_pos).take first_part
    let second_part := to_read - first_part
    let out2 := if second_part > 0 then cb.buffer.take second_part else []
    ({ cb with read_pos := (cb.read_pos + to_read) % cb.capacity
               available := cb.available - to_read },
     out1 ++ out2)

/-- One circular-buffer operation, as issued by the decode thread and the
audio callback.  A `write` carries the frames to store (the C call passes
the frame count alongside the pointer; here the count is the length of the
list). -/
inductive CBOp where
  | write (data : List Frame)
  | read (n : Nat)
  | clear

/-- Apply one operation to a buffer state. -/
def cbApply (cb : CircularBuffer) : CBOp → CircularBuffer
  | CBOp.write data => (circular_buffer_write cb data data.length).1
  | CBOp.read n => (circular_buffer_read cb n).1
  | CBOp.clear => circular_buffer_clear cb

/-- State reached from `circular_buffer_init capacity` by a sequence of
operations. -/
def cbRun (capacity : Nat) (ops : List CBOp) : CircularBuffer :=
  ops.foldl cbApply (circular_buffer_init capacity)

/-- Structural invariant of the circular buffer: the backing array keeps
its allocated size, the count never exceeds the capacity, the cursors stay
in range, and the count agrees with the cursors modulo the capacity. -/
def CBInv (cb : CircularBuffer) : Prop :=
  cb.buffer.length = cb.capacity ∧
  0 < cb.capacity ∧
  cb.available ≤ cb.capacity ∧
  cb.write_pos < cb.capacity ∧
  cb.read_pos < cb.capacity ∧
  (cb.read_pos + cb.available) % cb.capacity = cb.write_pos

/-! ## Reachable circular-buffer states

The spec quantifies over arbitrary interleaved sequences of `write`,
`read` and `clear` operations starting from `init`. -/

/-- Concrete state used to exhibit the full-buffer corner of the spec
formula: a capacity-1 buffer after one successful one-frame write. -/
def cbFullEx : CircularBuffer := cbRun 1 [CBOp.write [((0 : Int), (0 : Int))]]

/-- Concrete empty buffer with both cursors at position 2 of 3, so that a
two-frame write and the following read both wrap around the end of the
backing array. -/
def cbWrapEx : CircularBuffer :=
  { buffer := [((1 : Int), (2 : Int)), ((3 : Int), (4 : Int)), ((5 : Int), (6 : Int))]
    capacity := 3
    write_pos := 2
    read_pos := 2
    available := 0 }

/-- Two concrete frames for the wrap-around round-trip witness. -/
def dataWrapEx : List Frame := [((7 : Int), (8 : Int)), ((9 : Int), (10 : Int))]

/-- Concrete operation sequence for the amended-invariant witness. -/
def cbOpsEx : List CBOp :=
  [CBOp.write [((1 : Int), (1 : Int))], CBOp.read 1,
   CBOp.write [((2 : Int), (2 : Int)), ((3 : Int), (3 : Int))]]

/-- Player playback states, `PlayerState` in `player.h`. -/
inductive PlayerState where
  | stopped
  | playing
  | paused
deriving DecidableEq

/-- Audio formats recognized by `Player_detectFormat`, `AudioFormat` in
`player.h` (`mod` covers the tracker extensions mod/xm/s3m/it). -/
inductive AudioFormat where
  | unknown
  | wav
  | mp3
  | ogg
  | flac
  | mod
deriving DecidableEq

/-- Per-track decoder state, `StreamDecoder` in the source: the format
tag, the stream parameters read at open time and the current frame
cursor.  The `void* decoder` backend handle is modelled by the Boolean
`hasDecoder` (non-NULL); the codec-specific internals stay abstract. -/
structure StreamDecoderSt where
  hasDecoder : Bool
  format : AudioFormat
  source_sample_rate : Int
  source_channels : Int
  total_frames : Int
  current_frame : Int
deriving DecidableEq

/-- File-scope globals of `player.c` that the callback and the seek path
touch: `audio_position_samples` and `current_sample_rate`. -/
structure Globals where
  audio_position_samples : Int
  current_sample_rate : Int
deriving DecidableEq

/-- The fields of the global `PlayerContext` (and of the streaming
extension used by `player.c`) that the modelled operations read or
write.  The float `volume` is abstracted by `volume_in_unity_band`,
which records whether `0.99 <= volume <= 1.01` (the callback's cheap
no-op fast path); the actual sample scaling is passed to the callback
model as a function argument. -/
structure PlayerCtx where
  state : PlayerState
  use_streaming : Bool
  volume_in_unity_band : Bool
  stream_buffer : CircularBuffer
  stream_decoder : StreamDecoderSt
  position_ms : Int
  repeat_flag : Bool
  seek_target_frame : Int
  stream_seeking : Bool
  has_resampler : Bool
  vis_buffer : List Int
  vis_buffer_pos : Int
  track_duration_ms : Int
deriving DecidableEq

/-- Model of `Player_seek`: clamp the requested position to
`[0, duration_ms]`, in streaming mode store the source-rate target frame
and raise the seek-request flag for the decode thread, then update the
reported position and the sample counter immediately.  Returns the new
context and globals.  (All quantities are non-negative in the program,
so the Lean integer division agrees with the C one.) -/
def Player_seek (ctx : PlayerCtx) (g : Globals) (position_ms : Int) :
    PlayerCtx × Globals :=
  let pms := if position_ms < 0 then 0 else position_ms
  let pms2 := if pms > ctx.track_duration_ms then ctx.track_duration_ms else pms
  let ctx2 :=
    if ctx.use_streaming then
      { ctx with seek_target_frame := pms2 * ctx.stream_decoder.source_sample_rate / 1000
                 stream_seeking := true }
    else ctx
  ({ ctx2 with position_ms := pms2 },
   { g with audio_position_samples := pms2 * g.current_sample_rate / 1000 })

/-- Model of `Player_getPosition`. -/
def Player_getPosition (ctx : PlayerCtx) : Int :=
  ctx.position_ms

/-- Model of `stream_decoder_seek`: with no backend handle return -1;
otherwise clamp the frame to `[0, total_frames]` and reposition the
codec.  The codec call itself (`drmp3_seek_to_pcm_frame` and friends) is
abstracted by its success flag `seekOk`; on success the cursor moves to
the clamped frame, on failure it is left unchanged. -/
def stream_decoder_seek (sd : StreamDecoderSt) (frame : Int) (seekOk : Bool) :
    StreamDecoderSt × Int :=
  if !sd.hasDecoder then (sd, -1)
  else
    let f := if frame < 0 then 0 else frame
    let f2 := if f > sd.total_frames then sd.total_frames else f
    if seekOk then ({ sd with current_frame := f2 }, 0) else (sd, -1)

/-- Decode-thread state together with ghost instrumentation: the list of
frame arguments passed to `stream_decoder_seek` and the number of
`circular_buffer_clear` and resampler-reset calls performed.  The ghost
fields record what the thread does without changing it. -/
structure ThreadSt where
  ctx : PlayerCtx
  decoderSeeks : List Int
  bufferClears : Nat
  resamplerResets : Nat
deriving DecidableEq

/-- Model of the seek-service step at the top of `stream_thread_func`:
if a seek was requested, perform the decoder seek at the pending target
frame, clear the circular buffer, reset the resampler when one exists,
and lower the seek flag; otherwise do nothing. -/
def stream_thread_seek_check (t : ThreadSt) (seekOk : Bool) : ThreadSt :=
  if t.ctx.stream_seeking then
    let sd := (stream_decoder_seek t.ctx.stream_decoder t.ctx.seek_target_frame seekOk).1
    { ctx := { t.ctx with
        stream_decoder := sd
        stream_buffer := circular_buffer_clear t.ctx.stream_buffer
        stream_seeking := false }
      decoderSeeks := t.decoderSeeks ++ [t.ctx.seek_target_frame]
      bufferClears := t.bufferClears + 1
      resamplerResets := t.resamplerResets + (if t.ctx.has_resampler then 1 else 0) }
  else t

/-- Concrete player context used by the witnesses: a loaded 10-second
44.1 kHz stereo MP3 playing in streaming mode. -/
def ctxEx : PlayerCtx :=
  { state := PlayerState.playing
    use_streaming := true
    volume_in_unity_band := true
    stream_buffer := circular_buffer_init 4
    stream_decoder :=
      { hasDecoder := true, format := AudioFormat.mp3, source_sample_rate := 44100
        source_channels := 2, total_frames := 441000, current_frame := 0 }
    position_ms := 1234
    repeat_flag := false
    seek_target_frame := 0
    stream_seeking := false
    has_resampler := true
    vis_buffer := []
    vis_buffer_pos := 0
    track_duration_ms := 10000 }

/-- Concrete globals for the witnesses: 48 kHz output device. -/
def gEx : Globals :=
  { audio_position_samples := 0, current_sample_rate := 48000 }

/-- Concrete decode-thread state for the double-seek witness. -/
def tEx : ThreadSt :=
  { ctx := ctxEx, decoderSeeks := [], bufferClears := 0, resamplerResets := 0 }

/-- Model of `resample_chunk`.  When the source and destination rates
are equal the function just copies `min input_frames max_output_frames`
frames and returns without touching the resampler; otherwise it runs the
libsamplerate pipeline (int16 to float, `src_process`, float to int16
with clipping), which operates on floating-point data and is abstracted
here by the function argument `src_process_pipeline`, returning the
updated resampler state and the generated output frames.  The resampler
state type is a parameter `α` (the C `SRC_STATE*`). -/
def resample_chunk {α : Type}
    (src_process_pipeline : α → List Frame → Nat → Int → Int → Nat → Bool → α × List Frame)
    (input : List Frame) (input_frames : Nat) (src_rate dst_rate : Int)
    (max_output_frames : Nat) (src_state : α) (is_last : Bool) :
    List Frame × Nat × α :=
  if src_rate = dst_rate then
    let to_copy := if input_frames < max_output_frames then input_frames
      else max_output_frames
    (input.take to_copy, to_copy, src_state)
  else
    let r := src_process_pipeline src_state input input_frames src_rate dst_rate
      max_output_frames is_last
    (r.2, r.2.length, r.1)

/-- ASCII lower-casing as done by `strcasecmp`. -/
def asciiLower (c : Char) : Char :=
  if 64 < c.toNat ∧ c.toNat < 91 then Char.ofNat (c.toNat + 32) else c

/-- Case-insensitive string equality, `strcasecmp(a, b) == 0`. -/
def strcasecmpEq (a b : List Char) : Bool :=
  a.map asciiLower = b.map asciiLower

/-- Index of the last occurrence of `c` in `l`, the model of
`strrchr`. -/
def strrchrIdx (l : List Char) (c : Char) : Option Nat :=
  match (l.reverse).findIdx? (· = c) with
  | none => none
  | some k => some (l.length - 1 - k)

/-- Model of `Player_detectFormat`: take the extension after the last
dot of the path and compare it case-insensitively against the known
extensions. -/
def Player_detectFormat (filepath : List Char) : AudioFormat :=
  match strrchrIdx filepath (Char.ofNat 46) with
  | none => AudioFormat.unknown
  | some i =>
    let ext := filepath.drop (i + 1)
    if strcasecmpEq ext ("mp3".toList) then AudioFormat.mp3
    else if strcasecmpEq ext ("wav".toList) then AudioFormat.wav
    else if strcasecmpEq ext ("ogg".toList) then AudioFormat.ogg
    else if strcasecmpEq ext ("flac".toList) then AudioFormat.flac
    else if strcasecmpEq ext ("mod".toList) ∨ strcasecmpEq ext ("xm".toList) ∨
      strcasecmpEq ext ("s3m".toList) ∨ strcasecmpEq ext ("it".toList) then
      AudioFormat.mod
    else AudioFormat.unknown

/-- Environment of a `Player_load` call: the outcome of the external
calls it makes.  `openOk f` is the success of the codec backend init for
format `f` (`drmp3_init_file`, `drwav_init_file`, `drflac_open_file`,
`stb_vorbis_open_filename`), `decoderInfo f` the stream parameters the
backend reports on success (sample rate, channels, total frames);
`bufferAllocOk` is the `circular_buffer_init` malloc outcome,
`resamplerNewOk` the `src_new` outcome and `targetRate` the value of
`get_target_sample_rate()`. -/
structure LoadEnv where
  openOk : AudioFormat → Bool
  decoderInfo : AudioFormat → Int × Int × Int
  bufferAllocOk : Bool
  resamplerNewOk : Bool
  targetRate : Int

/-- Model of `stream_decoder_open`: detect the format from the
extension, fail on an unknown or non-streamable format, then initialize
exactly one codec backend, failing when the backend init fails. -/
def stream_decoder_open (env : LoadEnv) (filepath : List Char) :
    Option StreamDecoderSt :=
  let fmt := Player_detectFormat filepath
  if fmt = AudioFormat.mp3 ∨ fmt = AudioFormat.wav ∨ fmt = AudioFormat.flac ∨
      fmt = AudioFormat.ogg then
    if env.openOk fmt then
      some { hasDecoder := true
             format := fmt
             source_sample_rate := (env.decoderInfo fmt).1
             source_channels := (env.decoderInfo fmt).2.1
             total_frames := (env.decoderInfo fmt).2.2
             current_frame := 0 }
    else none
  else none

/-- Model of `load_streaming`: open the decoder, allocate the circular
buffer, create the resampler when the source rate differs from the
target rate, and only then spawn the decode thread.  Returns the C
return value and whether `pthread_create` was reached (the ghost
thread-spawned flag). -/
def load_streaming (env : LoadEnv) (filepath : List Char) : Int × Bool :=
  match stream_decoder_open env filepath with
  | none => (-1, false)
  | some sd =>
    if !env.bufferAllocOk then (-1, false)
    else if sd.source_sample_rate ≠ env.targetRate ∧ !env.resamplerNewOk then
      (-1, false)
    else (0, true)

/-- Model of `Player_load`: reject calls without initialized audio, then
use streaming playback for the four streamable formats and fail for
every other detected format.  Second component: whether a decode thread
was spawned. -/
def Player_load (env : LoadEnv) (audio_initialized : Bool) (filepath : List Char) :
    Int × Bool :=
  if !audio_initialized then (-1, false)
  else
    let fmt := Player_detectFormat filepath
    if fmt = AudioFormat.mp3 ∨ fmt = AudioFormat.wav ∨ fmt = AudioFormat.flac ∨
        fmt = AudioFormat.ogg then
      load_streaming env filepath
    else (-1, false)

/-- Concrete load environment for the C9 witness: every external call
succeeds, target rate 48 kHz, source rate 44.1 kHz. -/
def loadEnvEx : LoadEnv :=
  { openOk := fun _ => false
    decoderInfo := fun _ => ((44100 : Int), (2 : Int), (441000 : Int))
    bufferAllocOk := true
    resamplerNewOk := true
    targetRate := 48000 }

/-- Size of the decoded-audio ring of `radio.c`:
`AUDIO_RING_SIZE = SAMPLE_RATE * 2 * 10` (10 seconds of stereo
samples). -/
def AUDIO_RING_SIZE : Nat := 48000 * 2 * 10

/-- The radio audio ring buffer: the backing `int16_t` array (length
`size`, which is `AUDIO_RING_SIZE` in the program; the model keeps it as
a field so that witnesses can evaluate small instances), the read index
`audio_ring_read` and the sample count `audio_ring_count` (a C `int`).
The write index is not touched by `Radio_getAudioSamples` and is left
out. -/
structure RadioRing where
  ring : List Int
  size : Nat
  audio_ring_read : Nat
  audio_ring_count : Int
deriving DecidableEq

/-- The consumer loop of `Radio_getAudioSamples`: read `n` samples
starting at `idx`, advancing the index modulo the ring size after each
sample.  Returns the samples in order together with the final index. -/
def ringReadLoop (ring : List Int) (size : Nat) : Nat → Nat → List Int × Nat
  | idx, 0 => ([], idx)
  | idx, Nat.succ n =>
    let s := ring.getD idx 0
    let r := ringReadLoop ring size ((idx + 1) % size) n
    (s :: r.1, r.2)

/-- The first `n` samples of the ring content in FIFO order: consecutive
ring slots starting at the read index, wrapping modulo the ring size. -/
def ringSegment (ring : List Int) (size idx n : Nat) : List Int :=
  (List.range n).map (fun i => ring.getD ((idx + i) % size) 0)

/-- Model of `Radio_getAudioSamples`: cap the request at the available
count, pop that many samples from the ring in FIFO order, zero-fill the
rest of the caller buffer up to `max_samples`, decrement the count and
return the number of ring samples consumed.  The returned list is the
full contents written into `buffer`. -/
def Radio_getAudioSamples (st : RadioRing) (max_samples : Int) :
    List Int × Int × RadioRing :=
  let samples_to_read := if max_samples > st.audio_ring_count then
    st.audio_ring_count else max_samples
  let r := ringReadLoop st.ring st.size st.audio_ring_read samples_to_read.toNat
  let out := r.1 ++ List.replicate (max_samples.toNat - samples_to_read.toNat) 0
  (out, samples_to_read,
   { st with audio_ring_read := r.2
             audio_ring_count := st.audio_ring_count - samples_to_read })

/-- Concrete four-slot ring for the C10 witness: two unread samples
starting at index 3, so the FIFO read wraps from slot 3 to slot 0. -/
def radioRingEx : RadioRing :=
  { ring := [(10 : Int), (20 : Int), (30 : Int), (40 : Int)]
    size := 4
    audio_ring_read := 3
    audio_ring_count := 2 }

/-- The apostrophe character (ASCII 39) that delimits the
`StreamTitle` value in an ICY metadata block. -/
def apos : Char := Char.ofNat 39

/-- The search key of `parse_icy_metadata`: the 13 characters of
`StreamTitle=` followed by an opening apostrophe. -/
def icyTitleKey : List Char := ("StreamTitle=".toList) ++ [apos]

/-- The artist/title separator searched inside the StreamTitle value. -/
def icySep : List Char := " - ".toList

/-- The title and artist fields of the radio metadata struct.  (The
struct is declared in `radio.h`, which is not among the sources; the
two fields used by `parse_icy_metadata` are modelled as unbounded
strings, with their C buffer capacities kept as explicit parameters of
the parser.) -/
structure RadioMetadata where
  title : List Char
  artist : List Char
deriving DecidableEq

/-- Model of C `strstr`: index of the first position of `hay` at which
`pat` is a prefix of the remaining suffix. -/
def strstr (hay pat : List Char) : Option Nat :=
  if pat.isPrefixOf hay then some 0
  else
    match hay with
    | [] => none
    | _ :: t => (strstr t pat).map (· + 1)

/-- Model of C `strchr`: index of the first occurrence of `c`. -/
def strchrIdx (l : List Char) (c : Char) : Option Nat :=
  match l with
  | [] => none
  | a :: t => if a = c then some 0 else (strchrIdx t c).map (· + 1)

/-- Model of `parse_icy_metadata`: copy at most 4095 bytes of the block,
locate `StreamTitle=` followed by an apostrophe, take the value up to
the closing apostrophe, store it (truncated to the title capacity), then
split it at the first occurrence of the separator: the part before
becomes the artist (truncated to the artist capacity) and the part after
becomes the title; with no separator the whole value is the title and
the artist is cleared.  Without a `StreamTitle` key or a closing
apostrophe the metadata is left unchanged. -/
def parse_icy_metadata (titleCap artistCap : Nat) (data : List Char)
    (md : RadioMetadata) : RadioMetadata :=
  let meta := data.take 4095
  match strstr meta icyTitleKey with
  | none => md
  | some i =>
    let rest := meta.drop (i + 13)
    match strchrIdx rest apos with
    | none => md
    | some j =>
      let value := rest.take j
      let title0 := value.take (titleCap - 1)
      match strstr title0 icySep with
      | some k =>
        { title := title0.drop (k + 3)
          artist := (title0.take k).take (artistCap - 1) }
      | none => { title := title0, artist := [] }

/-- An ICY metadata block carrying the StreamTitle value `v`:
`StreamTitle=` + apostrophe + `v` + apostrophe + `;`. -/
def icyBlock (v : List Char) : List Char :=
  icyTitleKey ++ v ++ [apos] ++ (";".toList)

/-- The StreamTitle value of the C7 witness scenario. -/
def icyValueEx : List Char := "Artist Name - Song Title".toList

/-- Result of `parse_headers` on one connection attempt: 0 (success),
1 (redirect, with the Location value stored in `radio.redirect_url`), or
-1 (failure, with an error message already stored). -/
inductive HeaderResult where
  | ok
  | redirect (url : List Char)
  | fail
deriving DecidableEq

/-- Outcome of one connection attempt of the direct-stream path of
`Radio_play`: either `connect_stream` fails outright or it succeeds and
`parse_headers` classifies the response. -/
inductive ConnectAttempt where
  | connectFail
  | headers (h : HeaderResult)
deriving DecidableEq

/-- The distinct error exits of the `Radio_play` direct-stream loop,
each of which sets `RADIO_STATE_ERROR` and a human-readable message:
`connect_stream` failure, `parse_headers` failure, the literal messages
`Empty redirect URL` and `Too many redirects`. -/
inductive RadioErr where
  | connectFailed
  | headerFailed
  | emptyRedirectUrl
  | tooManyRedirects
deriving DecidableEq

/-- Outcome of the direct-stream connection phase of `Radio_play`:
either the loop breaks with parsed headers after following
`redirectsFollowed` redirects (and the streaming thread is then
spawned), or the error state is set and the call returns -1 with no
automatic retry. -/
inductive RadioPlayOutcome where
  | streaming (redirectsFollowed : Nat)
  | error (e : RadioErr)
deriving DecidableEq

/-- The redirect cap of the `Radio_play` direct path,
`int max_redirects = 5;` in the source. -/
def max_redirects : Nat := 5

/-- The `for (redirect_count = 0; redirect_count <= max_redirects; ...)`
loop of `Radio_play`, with the network interaction abstracted by
`attempt` (the outcome of the k-th connection attempt).  `fuel` is the
number of remaining loop iterations; the loop body itself guarantees an
exit by iteration `max_redirects`, so the fuel-exhausted case is
unreachable from `Radio_play_direct` below. -/
def radio_play_direct_go (attempt : Nat → ConnectAttempt) :
    Nat → Nat → RadioPlayOutcome
  | 0, _ => RadioPlayOutcome.error RadioErr.tooManyRedirects
  | fuel + 1, redirect_count =>
    match attempt redirect_count with
    | ConnectAttempt.connectFail => RadioPlayOutcome.error RadioErr.connectFailed
    | ConnectAttempt.headers HeaderResult.ok => RadioPlayOutcome.streaming redirect_count
    | ConnectAttempt.headers HeaderResult.fail => RadioPlayOutcome.error RadioErr.headerFailed
    | ConnectAttempt.headers (HeaderResult.redirect url) =>
      if url = [] then RadioPlayOutcome.error RadioErr.emptyRedirectUrl
      else if redirect_count = max_redirects then
        RadioPlayOutcome.error RadioErr.tooManyRedirects
      else radio_play_direct_go attempt fuel (redirect_count + 1)

/-- The direct-stream connection phase of `Radio_play`: the loop runs
for `redirect_count` from 0 to `max_redirects` inclusive. -/
def Radio_play_direct (attempt : Nat → ConnectAttempt) : RadioPlayOutcome :=
  radio_play_direct_go attempt (max_redirects + 1) 0

/-- Response of the server reached under one URL, for the model of
`fetch_url_content` (used for HLS playlists and segments): an HTTP
3xx redirect with a Location target, a 3xx without Location, a body, or
a connection/handshake/header failure.  URLs are identified by
numbers. -/
inductive FetchResp where
  | redirect (target : Nat)
  | redirectNoLoc
  | content (data : List Int)
  | connectFail
deriving DecidableEq

/-- Model of `fetch_url_content`: fetch a URL and, on a redirect with a
Location header, recurse on the target.  The C function recurses with no
hop bound at all; the `fuel` argument exists only to express that
unbounded recursion in Lean and the results below hold for every
sufficiently large fuel. -/
def fetch_url_content (env : Nat → FetchResp) : Nat → Nat → Option (List Int)
  | 0, _ => none
  | fuel + 1, url =>
    match env url with
    | FetchResp.connectFail => none
    | FetchResp.redirectNoLoc => none
    | FetchResp.content d => some d
    | FetchResp.redirect t => fetch_url_content env fuel t

/-- A redirect chain of length `n` ending in a body: URL `u < n`
redirects to `u + 1`, URL `n` serves `d`. -/
def chainEnv (n : Nat) (d : List Int) : Nat → FetchResp :=
  fun u => if u < n then FetchResp.redirect (u + 1) else FetchResp.content d

/-- Radio engine states.  Modelled from the spec: the `RadioState` enum
is declared in `radio.h`, which is not among the sources; the spec
(sections 4.5 and 4.7) and the uses in `radio.c` give the five states
Stopped, Connecting, Buffering, Playing and Error. -/
inductive RadioState where
  | stopped
  | connecting
  | buffering
  | playing
  | error
deriving DecidableEq

/-- Model of `Radio_isActive`: the radio owns the audio callback unless
it is stopped or in the error state. -/
def Radio_isActive (s : RadioState) : Bool :=
  !(s = RadioState.stopped) && !(s = RadioState.error)

/-- Interleave a list of stereo frames into the flat int16 sample layout
of the SDL stream. -/
def flattenFrames : List Frame → List Int
  | [] => []
  | f :: t => (f : Int × Int).1 :: (f : Int × Int).2 :: flattenFrames t

/-- Everything `audio_callback` writes: the bytes of the SDL stream
(as int16 samples) and the new values of the player context, the
file-scope globals and the radio ring it may have consumed from. -/
structure CallbackOut where
  stream : List Int
  ctx : PlayerCtx
  g : Globals
  radio : RadioRing
deriving DecidableEq

/-- Model of `audio_callback`.  `old` is the previous contents of the
SDL stream (one entry per int16 slot; SDL always passes `len` a
multiple of the 4-byte frame size, so `len / 2` slots make up exactly
`len` bytes, and `memset(stream, 0, len)` is `List.replicate (len / 2)
0`).  `lockOk` is the outcome of `pthread_mutex_trylock` on the player
mutex, `visLockOk` the outcome of the visualization try-lock, and
`scale` abstracts the float multiplication `out[i] * ctx->volume`
performed when the volume lies outside the unity band. -/
def audio_callback (radioState : RadioState) (rr : RadioRing)
    (lockOk visLockOk : Bool) (scale : Int → Int)
    (ctx : PlayerCtx) (g : Globals) (old : List Int) (len : Nat) : CallbackOut :=
  let samples_needed : Nat := len / 4
  if Radio_isActive radioState then
    if radioState = RadioState.playing then
      let r := Radio_getAudioSamples rr ((samples_needed * 2 : Nat) : Int)
      let region1 := r.1.take r.2.1.toNat ++
        List.replicate (samples_needed * 2 - r.2.1.toNat) 0
      let region2 := if ctx.volume_in_unity_band then region1 else region1.map scale
      { stream := region2 ++ old.drop (samples_needed * 2)
        ctx := ctx, g := g, radio := r.2.2 }
    else
      { stream := List.replicate (len / 2) 0, ctx := ctx, g := g, radio := rr }
  else if !lockOk then
    { stream := List.replicate (len / 2) 0, ctx := ctx, g := g, radio := rr }
  else if !(ctx.state = PlayerState.playing) then
    { stream := List.replicate (len / 2) 0, ctx := ctx, g := g, radio := rr }
  else if ctx.use_streaming then
    let rd := circular_buffer_read ctx.stream_buffer samples_needed
    let samples_read := rd.2.length
    let data1 := if ctx.volume_in_unity_band then flattenFrames rd.2
      else (flattenFrames rd.2).map scale
    let region := data1 ++ List.replicate ((samples_needed - samples_read) * 2) 0
    let vis_n := min (samples_read * 2) 2048
    let ctx2 := if samples_read > 0 ∧ visLockOk then
        { ctx with vis_buffer := region.take vis_n ++ ctx.vis_buffer.drop vis_n
                   vis_buffer_pos := (vis_n : Int) }
      else ctx
    let aps := g.audio_position_samples + samples_read
    let ctx3 := { ctx2 with stream_buffer := rd.1
                            position_ms := aps * 1000 / g.current_sample_rate }
    let stream := region ++ old.drop (samples_needed * 2)
    if ctx.stream_decoder.current_frame ≥ ctx.stream_decoder.total_frames ∧
        circular_buffer_available rd.1 = 0 then
      if ctx.repeat_flag then
        { stream := stream
          ctx := { ctx3 with seek_target_frame := 0, stream_seeking := true
                             position_ms := 0 }
          g := { g with audio_position_samples := 0 }, radio := rr }
      else
        { stream := stream
          ctx := { ctx3 with state := PlayerState.stopped, position_ms := 0 }
          g := { g with audio_position_samples := 0 }, radio := rr }
    else
      { stream := stream, ctx := ctx3
        g := { g with audio_position_samples := aps }, radio := rr }
  else
    { stream := List.replicate (len / 2) 0, ctx := ctx, g := g, radio := rr }

/-- Ring state for the C1 witness (irrelevant to the exercised path). -/
def radioRingEmptyEx : RadioRing :=
  { ring := [], size := 1, audio_ring_read := 0, audio_ring_count := 0 }

/-- The unread contents of a circular buffer: the `available` frames
starting at the read cursor, in FIFO order, wrapping modulo the
capacity.  This is exactly the data a reader would obtain by draining
the buffer. -/
def cbContents (cb : CircularBuffer) : List Frame :=
  (List.range cb.available).map
    (fun i => cb.buffer.getD ((cb.read_pos + i) % cb.capacity) ((0 : Int), (0 : Int)))

-- ===================== THEOREMS =====================

theorem listCopy_length {α : Type} (src : List α) (dst : List α) (pos : Nat) :
    (listCopy dst pos src).length = dst.length := by
  induction src generalizing dst pos with
  | nil => rfl
  | cons a rest ih => simp [listCopy, ih]

theorem listCopy_getElem?_of_lt {α : Type} (src : List α) (dst : List α) (pos i : Nat)
    (h : i < pos) : (listCopy dst pos src)[i]? = dst[i]? := by
  induction src generalizing dst pos with
  | nil => rfl
  | cons a rest ih =>
    rw [listCopy, ih _ _ (Nat.lt_succ_of_lt h)]
    exact List.getElem?_set_ne (by omega)

theorem listCopy_getElem?_of_ge {α : Type} (src : List α) (dst : List α) (pos i : Nat)
    (h : pos + src.length ≤ i) : (listCopy dst pos src)[i]? = dst[i]? := by
  induction src generalizing dst pos with
  | nil => rfl
  | cons a rest ih =>
    rw [listCopy, ih _ _ (by simp at h ⊢; omega)]
    exact List.getElem?_set_ne (by simp at h; omega)

theorem listCopy_getElem?_of_mem {α : Type} (src : List α) (dst : List α) (pos i : Nat)
    (h1 : pos ≤ i) (h2 : i < pos + src.length) (h3 : pos + src.length ≤ dst.length) :
    (listCopy dst pos src)[i]? = src[i - pos]? := by
  induction src generalizing dst pos with
  | nil => simp at h2; omega
  | cons a rest ih =>
    rw [listCopy]
    rcases Nat.eq_or_lt_of_le h1 with heq | hlt
    · subst heq
      rw [listCopy_getElem?_of_lt _ _ _ _ (Nat.lt_succ_self _)]
      simp only [Nat.sub_self, List.getElem?_cons_zero]
      apply List.getElem?_set_self
      simp at h3; omega
    · rw [ih (dst.set pos a) (pos + 1) hlt (by simp at h2 ⊢; omega)
        (by simp at h3 ⊢; omega)]
      have : i - pos = (i - (pos + 1)) + 1 := by omega
      rw [this]
      simp

theorem circular_buffer_write_inv (cb : CircularBuffer) (data : List Frame) (frames : Nat)
    (h : CBInv cb) : CBInv (circular_buffer_write cb data frames).1 := by
  obtain ⟨hlen, hcap, havail, hwp, hrp, hcong⟩ := h
  simp only [circular_buffer_write]
  split_ifs
  all_goals first
    | exact ⟨hlen, hcap, havail, hwp, hrp, hcong⟩
    | (refine ⟨by simp [listCopy_length, hlen], hcap, by dsimp only; omega,
         by dsimp only; exact Nat.mod_lt _ hcap, hrp, ?_⟩
       dsimp only
       rw [← hcong, Nat.mod_add_mod]
       congr 1
       omega)

theorem circular_buffer_read_inv (cb : CircularBuffer) (frames : Nat)
    (h : CBInv cb) : CBInv (circular_buffer_read cb frames).1 := by
  obtain ⟨hlen, hcap, havail, hwp, hrp, hcong⟩ := h
  simp only [circular_buffer_read]
  split_ifs
  all_goals first
    | exact ⟨hlen, hcap, havail, hwp, hrp, hcong⟩
    | (refine ⟨hlen, hcap, by dsimp only; omega,
         hwp, by dsimp only; exact Nat.mod_lt _ hcap, ?_⟩
       dsimp only
       rw [Nat.mod_add_mod, ← hcong]
       congr 1
       omega)

theorem circular_buffer_clear_inv (cb : CircularBuffer)
    (h : CBInv cb) : CBInv (circular_buffer_clear cb) := by
  obtain ⟨hlen, hcap, _, _, _, _⟩ := h
  exact ⟨hlen, hcap, Nat.zero_le _, hcap, hcap, by simp [circular_buffer_clear]⟩

theorem circular_buffer_init_inv (capacity : Nat) (hcap : 0 < capacity) :
    CBInv (circular_buffer_init capacity) :=
  ⟨by simp [circular_buffer_init], hcap, Nat.zero_le _, hcap, hcap,
    by simp [circular_buffer_init]⟩

theorem cbRun_inv (capacity : Nat) (hcap : 0 < capacity) (ops : List CBOp) :
    CBInv (cbRun capacity ops) := by
  suffices h : ∀ cb, CBInv cb → CBInv (ops.foldl cbApply cb) from
    h _ (circular_buffer_init_inv capacity hcap)
  induction ops with
  | nil => exact fun cb h => h
  | cons op rest ih =>
    intro cb h
    refine ih _ ?_
    cases op with
    | write data => exact circular_buffer_write_inv cb data data.length h
    | read n => exact circular_buffer_read_inv cb n h
    | clear => exact circular_buffer_clear_inv cb h

theorem circular_buffer_write_ret (cb : CircularBuffer) (data : List Frame) (frames : Nat) :
    (circular_buffer_write cb data frames).2 =
      min frames (cb.capacity - cb.available) := by
  simp only [circular_buffer_write]
  split_ifs <;> dsimp only <;> omega

theorem circular_buffer_write_full (cb : CircularBuffer) (data : List Frame) (frames : Nat)
    (h : cb.available = cb.capacity) :
    circular_buffer_write cb data frames = (cb, 0) := by
  simp only [circular_buffer_write, h, Nat.sub_self]
  split_ifs <;> first | rfl | omega

theorem listCopy_slice {α : Type} (src dst : List α) (pos : Nat)
    (h : pos + src.length ≤ dst.length) :
    ((listCopy dst pos src).drop pos).take src.length = src := by
  apply List.ext_getElem?
  intro i
  by_cases hi : i < src.length
  · rw [List.getElem?_take, if_pos hi, List.getElem?_drop,
      listCopy_getElem?_of_mem _ _ _ _ (by omega) (by omega) h]
    congr 1
    omega
  · rw [List.getElem?_eq_none, List.getElem?_eq_none (by omega)]
    simp [listCopy_length]
    omega

theorem listCopy_drop_of_le {α : Type} (src dst : List α) (pos k : Nat)
    (h : pos + src.length ≤ k) :
    (listCopy dst pos src).drop k = dst.drop k := by
  apply List.ext_getElem?
  intro i
  rw [List.getElem?_drop, List.getElem?_drop]
  exact listCopy_getElem?_of_ge _ _ _ _ (by omega)

theorem listCopy_slice_len {α : Type} (src dst : List α) (pos n : Nat)
    (hn : n = src.length) (h : pos + src.length ≤ dst.length) :
    ((listCopy dst pos src).drop pos).take n = src := by
  subst hn
  exact listCopy_slice src dst pos h

theorem listCopy_take_at_zero {α : Type} (src dst : List α) (n : Nat)
    (hn : n = src.length) (h : src.length ≤ dst.length) :
    (listCopy dst 0 src).take n = src := by
  subst hn
  have hs := listCopy_slice src dst 0 (by omega)
  simpa using hs

/-- C3: writing the N frames of `data` (N < capacity) into an empty
circular buffer and then reading N frames returns exactly the written
frames, in order.  The hypotheses state that the buffer is empty with
both cursors on the same in-range position, which holds for a freshly
initialized buffer (`circular_buffer_init`, cursors at 0) and also after
any balanced sequence of reads and writes; cursor positions other than 0
exercise the wrap-around paths of `circular_buffer_write` and
`circular_buffer_read`, where the copy spans the end of the backing
array. -/
theorem circular_buffer_roundtrip (cb : CircularBuffer) (data : List Frame)
    (hlen : cb.buffer.length = cb.capacity)
    (hempty : cb.available = 0)
    (heq : cb.write_pos = cb.read_pos)
    (hrp : cb.read_pos < cb.capacity)
    (hN : data.length < cb.capacity) :
    (circular_buffer_write cb data data.length).2 = data.length ∧
    (circular_buffer_read (circular_buffer_write cb data data.length).1 data.length).2
      = data := by
  rcases Nat.eq_zero_or_pos data.length with h0 | h0
  · have hdata : data = [] := List.eq_nil_of_length_eq_zero h0
    subst hdata
    have hw : circular_buffer_write cb [] 0 = (cb, 0) := by
      simp only [circular_buffer_write, List.length_nil]
      split_ifs <;> first | rfl | omega
    have hr : circular_buffer_read cb 0 = (cb, []) := by
      simp only [circular_buffer_read]
      split_ifs <;> first | rfl | omega
    rw [List.length_nil, hw, hr]
    exact ⟨rfl, rfl⟩
  · simp only [circular_buffer_write, hempty, heq, Nat.sub_zero]
    split_ifs <;> dsimp only <;> try omega
    all_goals refine ⟨rfl, ?_⟩
    all_goals simp only [circular_buffer_read]
    all_goals split_ifs <;> dsimp only <;> try omega
    · simp only [Nat.zero_add, List.append_nil, List.take_length]
      exact listCopy_slice data cb.buffer cb.read_pos (by omega)
    · simp only [Nat.zero_add]
      have hrest : (List.drop (cb.capacity - cb.read_pos) data).take
          (data.length - (cb.capacity - cb.read_pos)) =
          List.drop (cb.capacity - cb.read_pos) data :=
        List.take_of_length_le (by simp [List.length_drop])
      rw [hrest, listCopy_drop_of_le _ _ _ _ (by simp [List.length_drop]; omega),
        listCopy_take_at_zero _ _ _ (by simp [List.length_drop])
          (by simp [listCopy_length, hlen]; omega),
        listCopy_slice_len _ _ _ _ (by simp [List.length_take]; omega)
          (by simp [List.length_take, hlen]; omega)]
      exact List.take_append_drop _ data
    · have hcp : cb.capacity - cb.read_pos = data.length := by omega
      simp only [hcp, List.append_nil, List.take_length]
      exact listCopy_slice data cb.buffer cb.read_pos (by omega)


/-- C2 (counterexample): the literal spec formula
`available == (write_pos - read_pos) mod capacity` fails on a reachable
state.  Writing one frame into a fresh capacity-1 buffer gives
`available = 1` while `(write_pos - read_pos) mod capacity = 0`: when the
buffer becomes exactly full, the cursors coincide and the modulus
collapses the difference to zero. -/
theorem circular_buffer_invariant_counterexample :
    ((cbFullEx.available : Int) =
      ((cbFullEx.write_pos : Int) - (cbFullEx.read_pos : Int)) %
        (cbFullEx.capacity : Int)) = False := by
  decide

theorem mod_cases_two (x C : Nat) (hx : x < 2 * C) :
    (x < C ∧ x % C = x) ∨ (C ≤ x ∧ x % C = x - C) := by
  rcases Nat.lt_or_ge x C with h | h
  · exact Or.inl ⟨h, Nat.mod_eq_of_lt h⟩
  · exact Or.inr ⟨h, by rw [Nat.mod_eq_sub_mod h, Nat.mod_eq_of_lt (by omega)]⟩

theorem circular_buffer_write_read_pos (cb : CircularBuffer) (data : List Frame)
    (frames : Nat) : (circular_buffer_write cb data frames).1.read_pos = cb.read_pos := by
  simp only [circular_buffer_write]
  split_ifs <;> rfl

theorem circular_buffer_write_capacity (cb : CircularBuffer) (data : List Frame)
    (frames : Nat) : (circular_buffer_write cb data frames).1.capacity = cb.capacity := by
  simp only [circular_buffer_write]
  split_ifs <;> rfl

theorem circular_buffer_write_available (cb : CircularBuffer) (data : List Frame)
    (frames : Nat) : (circular_buffer_write cb data frames).1.available =
      cb.available + min frames (cb.capacity - cb.available) := by
  simp only [circular_buffer_write]
  split_ifs <;> dsimp only <;> omega

theorem circular_buffer_write_getElem_new (cb : CircularBuffer) (data : List Frame)
    (frames : Nat) (hlen : cb.buffer.length = cb.capacity)
    (hwp : cb.write_pos < cb.capacity) (hframes : frames ≤ data.length) (j : Nat)
    (hj : j < min frames (cb.capacity - cb.available)) :
    ((circular_buffer_write cb data frames).1.buffer)[(cb.write_pos + j) % cb.capacity]? =
      data[j]? := by
  have htw : (if frames < cb.capacity - cb.available then frames
      else cb.capacity - cb.available) = min frames (cb.capacity - cb.available) := by
    split_ifs <;> omega
  simp only [circular_buffer_write, htw]
  set t := min frames (cb.capacity - cb.available) with ht
  rw [if_neg (by omega : ¬ t = 0)]
  by_cases h3 : cb.capacity - cb.write_pos > t
  · rw [if_pos h3, if_neg (by omega : ¬ t - t > 0)]
    dsimp only
    rw [Nat.mod_eq_of_lt (by omega : cb.write_pos + j < cb.capacity),
      listCopy_getElem?_of_mem _ _ _ _ (by omega)
        (by rw [List.length_take]; omega)
        (by rw [List.length_take]; omega)]
    rw [Nat.add_sub_cancel_left, List.getElem?_take, if_pos (by omega : j < t)]
  · rw [if_neg h3]
    by_cases h4 : t - (cb.capacity - cb.write_pos) > 0
    · rw [if_pos h4]
      dsimp only
      rcases Nat.lt_or_ge j (cb.capacity - cb.write_pos) with hj2 | hj2
      · rw [Nat.mod_eq_of_lt (by omega : cb.write_pos + j < cb.capacity),
          listCopy_getElem?_of_ge _ _ _ _
            (by have := List.length_take_le (t - (cb.capacity - cb.write_pos))
                  (data.drop (cb.capacity - cb.write_pos))
                omega),
          listCopy_getElem?_of_mem _ _ _ _ (by omega)
            (by rw [List.length_take]; omega)
            (by rw [List.length_take]; omega)]
        rw [Nat.add_sub_cancel_left, List.getElem?_take,
          if_pos (by omega : j < cb.capacity - cb.write_pos)]
      · have hwj : cb.write_pos + j < 2 * cb.capacity := by omega
        rcases mod_cases_two (cb.write_pos + j) cb.capacity hwj with ⟨h5, _⟩ | ⟨_, h5⟩
        · omega
        · rw [h5, listCopy_getElem?_of_mem _ _ _ _ (by omega)
            (by rw [List.length_take, List.length_drop]; omega)
            (by rw [List.length_take, List.length_drop, listCopy_length, hlen]; omega)]
          rw [Nat.sub_zero, List.getElem?_take,
            if_pos (by omega :
              cb.write_pos + j - cb.capacity < t - (cb.capacity - cb.write_pos)),
            List.getElem?_drop]
          congr 1
          omega
    · rw [if_neg h4]
      dsimp only
      rw [Nat.mod_eq_of_lt (by omega : cb.write_pos + j < cb.capacity),
        listCopy_getElem?_of_mem _ _ _ _ (by omega)
          (by rw [List.length_take]; omega)
          (by rw [List.length_take]; omega)]
      rw [Nat.add_sub_cancel_left, List.getElem?_take,
        if_pos (by omega : j < cb.capacity - cb.write_pos)]

theorem circular_buffer_write_getElem_old (cb : CircularBuffer) (data : List Frame)
    (frames : Nat) (p : Nat)
    (hA : p < cb.write_pos ∨
      cb.write_pos + min (cb.capacity - cb.write_pos)
        (min frames (cb.capacity - cb.available)) ≤ p)
    (hB : min frames (cb.capacity - cb.available) -
      min (cb.capacity - cb.write_pos) (min frames (cb.capacity - cb.available)) ≤ p) :
    ((circular_buffer_write cb data frames).1.buffer)[p]? = cb.buffer[p]? := by
  have htw : (if frames < cb.capacity - cb.available then frames
      else cb.capacity - cb.available) = min frames (cb.capacity - cb.available) := by
    split_ifs <;> omega
  simp only [circular_buffer_write, htw]
  set t := min frames (cb.capacity - cb.available) with ht
  by_cases ht0 : t = 0
  · rw [if_pos ht0]
  · rw [if_neg ht0]
    by_cases h3 : cb.capacity - cb.write_pos > t
    · rw [if_pos h3, if_neg (by omega : ¬ t - t > 0)]
      dsimp only
      rcases hA with hA | hA
      · exact listCopy_getElem?_of_lt _ _ _ _ hA
      · refine listCopy_getElem?_of_ge _ _ _ _ ?_
        have := List.length_take_le t data
        omega
    · rw [if_neg h3]
      by_cases h4 : t - (cb.capacity - cb.write_pos) > 0
      · rw [if_pos h4]
        dsimp only
        rw [listCopy_getElem?_of_ge _ _ _ _
          (by have := List.length_take_le (t - (cb.capacity - cb.write_pos))
                (data.drop (cb.capacity - cb.write_pos))
              omega)]
        rcases hA with hA | hA
        · exact listCopy_getElem?_of_lt _ _ _ _ hA
        · refine listCopy_getElem?_of_ge _ _ _ _ ?_
          have := List.length_take_le (cb.capacity - cb.write_pos) data
          omega
      · rw [if_neg h4]
        dsimp only
        rcases hA with hA | hA
        · exact listCopy_getElem?_of_lt _ _ _ _ hA
        · refine listCopy_getElem?_of_ge _ _ _ _ ?_
          have := List.length_take_le (cb.capacity - cb.write_pos) data
          omega

theorem circular_buffer_write_contents (cb : CircularBuffer) (data : List Frame)
    (frames : Nat) (h : CBInv cb) (hframes : frames ≤ data.length) :
    cbContents (circular_buffer_write cb data frames).1 =
      cbContents cb ++ data.take (min frames (cb.capacity - cb.available)) := by
  obtain ⟨hlen, hcap, havail, hwp, hrp, hcong⟩ := h
  simp only [cbContents, circular_buffer_write_read_pos, circular_buffer_write_capacity,
    circular_buffer_write_available]
  rw [List.range_add, List.map_append, List.map_map]
  congr 1
  · apply List.map_congr_left
    intro i hi
    rw [List.mem_range] at hi
    rw [List.getD_eq_getElem?_getD, List.getD_eq_getElem?_getD]
    congr 1
    apply circular_buffer_write_getElem_old
    · rcases mod_cases_two (cb.read_pos + cb.available) cb.capacity (by omega)
        with ⟨hw1, hw2⟩ | ⟨hw1, hw2⟩ <;>
      rcases mod_cases_two (cb.read_pos + i) cb.capacity (by omega)
        with ⟨hq1, hq2⟩ | ⟨hq1, hq2⟩ <;>
      rw [hq2] <;> rw [hw2] at hcong <;> omega
    · rcases mod_cases_two (cb.read_pos + cb.available) cb.capacity (by omega)
        with ⟨hw1, hw2⟩ | ⟨hw1, hw2⟩ <;>
      rcases mod_cases_two (cb.read_pos + i) cb.capacity (by omega)
        with ⟨hq1, hq2⟩ | ⟨hq1, hq2⟩ <;>
      rw [hq2] <;> rw [hw2] at hcong <;> omega
  · apply List.ext_getElem?
    intro k
    by_cases hk : k < min frames (cb.capacity - cb.available)
    · rw [List.getElem?_map, List.getElem?_take, if_pos hk]
      rw [List.getElem?_range (by omega)]
      simp only [Option.map_some', Function.comp]
      have hp : (cb.read_pos + (cb.available + k)) % cb.capacity =
          (cb.write_pos + k) % cb.capacity := by
        conv_lhs => rw [← Nat.add_assoc, ← Nat.mod_add_mod, hcong]
      rw [hp, List.getD_eq_getElem?_getD,
        circular_buffer_write_getElem_new cb data frames hlen hwp hframes k hk,
        List.getElem?_eq_getElem (by omega : k < data.length)]
      rfl
    · rw [List.getElem?_eq_none, List.getElem?_eq_none]
      · rw [List.length_take]
        omega
      · rw [List.length_map, List.length_range]
        omega

/-- C2 (amended): for every state reachable from `circular_buffer_init`
by any interleaved sequence of write, read and clear operations,
`circular_buffer_available` never exceeds the capacity; the cursor
relation holds in congruence form
`available mod capacity = (write_pos - read_pos) mod capacity`
(the literal equality fails only in the exactly-full state); a write
issued when the buffer is full returns 0 and leaves the whole state,
including all stored unread data, unchanged; in general a write returns
`min framesRequested (capacity - available)`, saturating at the free
space, and never overwrites unread data: after any write the unread
contents are the previous unread contents followed by exactly the
accepted prefix of the new data. -/
theorem circular_buffer_invariant_amended (capacity : Nat) (hcap : 0 < capacity)
    (ops : List CBOp) :
    circular_buffer_available (cbRun capacity ops) ≤ (cbRun capacity ops).capacity ∧
    (((cbRun capacity ops).available : Int) % ((cbRun capacity ops).capacity : Int) =
      (((cbRun capacity ops).write_pos : Int) - ((cbRun capacity ops).read_pos : Int)) %
        ((cbRun capacity ops).capacity : Int)) ∧
    (∀ (data : List Frame) (frames : Nat),
      (circular_buffer_write (cbRun capacity ops) data frames).2 =
        min frames ((cbRun capacity ops).capacity - (cbRun capacity ops).available)) ∧
    (∀ (data : List Frame) (frames : Nat),
      (cbRun capacity ops).available = (cbRun capacity ops).capacity →
      circular_buffer_write (cbRun capacity ops) data frames = (cbRun capacity ops, 0)) ∧
    (∀ (data : List Frame) (frames : Nat), frames ≤ data.length →
      cbContents (circular_buffer_write (cbRun capacity ops) data frames).1 =
        cbContents (cbRun capacity ops) ++
          data.take (min frames
            ((cbRun capacity ops).capacity - (cbRun capacity ops).available))) := by
  have hinv := cbRun_inv capacity hcap ops
  obtain ⟨hlen, hcap2, havail, hwp, hrp, hcong⟩ := hinv
  refine ⟨havail, ?_, fun data frames => circular_buffer_write_ret _ data frames,
    fun data frames h => circular_buffer_write_full _ data frames h,
    fun data frames hf => circular_buffer_write_contents _ data frames
      (cbRun_inv capacity hcap ops) hf⟩
  have h1 : ((cbRun capacity ops).write_pos : Int) =
      ((((cbRun capacity ops).read_pos + (cbRun capacity ops).available) %
        (cbRun capacity ops).capacity : Nat) : Int) := by
    exact_mod_cast congrArg (fun n : Nat => (n : Int)) hcong.symm
  rw [h1]
  push_cast
  conv_rhs => rw [Int.sub_emod]
  rw [Int.emod_emod_of_dvd _ dvd_rfl, ← Int.sub_emod, add_sub_cancel_left]

/-- C2 (witness): the amended invariant instantiated on a concrete
capacity-2 buffer after a mixed write/read/write sequence. -/
theorem circular_buffer_invariant_amended_witness :
    circular_buffer_available (cbRun 2 cbOpsEx) ≤ (cbRun 2 cbOpsEx).capacity ∧
    (((cbRun 2 cbOpsEx).available : Int) % ((cbRun 2 cbOpsEx).capacity : Int) =
      (((cbRun 2 cbOpsEx).write_pos : Int) - ((cbRun 2 cbOpsEx).read_pos : Int)) %
        ((cbRun 2 cbOpsEx).capacity : Int)) ∧
    (∀ (data : List Frame) (frames : Nat),
      (circular_buffer_write (cbRun 2 cbOpsEx) data frames).2 =
        min frames ((cbRun 2 cbOpsEx).capacity - (cbRun 2 cbOpsEx).available)) ∧
    (∀ (data : List Frame) (frames : Nat),
      (cbRun 2 cbOpsEx).available = (cbRun 2 cbOpsEx).capacity →
      circular_buffer_write (cbRun 2 cbOpsEx) data frames = (cbRun 2 cbOpsEx, 0)) ∧
    (∀ (data : List Frame) (frames : Nat), frames ≤ data.length →
      cbContents (circular_buffer_write (cbRun 2 cbOpsEx) data frames).1 =
        cbContents (cbRun 2 cbOpsEx) ++
          data.take (min frames
            ((cbRun 2 cbOpsEx).capacity - (cbRun 2 cbOpsEx).available))) :=
  circular_buffer_invariant_amended 2 (by decide) cbOpsEx

/-- C3 (witness): the round-trip theorem applied to a concrete buffer
whose cursors sit at position 2 of capacity 3, so that both the write and
the read wrap around the end of the backing array. -/
theorem circular_buffer_roundtrip_witness :
    (circular_buffer_write cbWrapEx dataWrapEx dataWrapEx.length).2 = dataWrapEx.length ∧
    (circular_buffer_read (circular_buffer_write cbWrapEx dataWrapEx dataWrapEx.length).1
      dataWrapEx.length).2 = dataWrapEx :=
  circular_buffer_roundtrip cbWrapEx dataWrapEx (by decide) (by decide) (by decide)
    (by decide) (by decide)

/-- C4: calling `Player_seek ms` and reading the position back
immediately — before any decode-thread step runs — returns `ms` clamped
to `[0, duration_ms]`: the reported position is updated synchronously by
the seek call itself (the decode thread only ever consumes the seek
request later). -/
theorem Player_seek_getPosition (ctx : PlayerCtx) (g : Globals) (ms : Int)
    (hdur : 0 ≤ ctx.track_duration_ms) :
    Player_getPosition (Player_seek ctx g ms).1 =
      max 0 (min ms ctx.track_duration_ms) := by
  simp only [Player_seek, Player_getPosition]
  split_ifs <;> omega

/-- C4 (witness): seeking to 25000 ms in a 10000 ms track reports
position 10000 ms immediately. -/
theorem Player_seek_getPosition_witness :
    Player_getPosition (Player_seek ctxEx gEx 25000).1 =
      max 0 (min 25000 10000) :=
  Player_seek_getPosition _ _ 25000 (by decide)

/-- C5: if two `Player_seek` calls are issued before the decode thread
services the first request, the next seek-service step of the decode
thread performs exactly one decoder seek, at the target frame computed
from the second (most recent) call, and clears the circular buffer
exactly once; the first target is overwritten and never applied, and a
further service step changes nothing (the request flag is down). -/
theorem double_seek_single_service (t : ThreadSt) (g : Globals) (ms1 ms2 : Int)
    (seekOk : Bool) (hstream : t.ctx.use_streaming = true)
    (hdur : 0 ≤ t.ctx.track_duration_ms) :
    (stream_thread_seek_check
        { t with ctx := (Player_seek (Player_seek t.ctx g ms1).1
            (Player_seek t.ctx g ms1).2 ms2).1 } seekOk).decoderSeeks =
      t.decoderSeeks ++ [max 0 (min ms2 t.ctx.track_duration_ms) *
        t.ctx.stream_decoder.source_sample_rate / 1000] ∧
    (stream_thread_seek_check
        { t with ctx := (Player_seek (Player_seek t.ctx g ms1).1
            (Player_seek t.ctx g ms1).2 ms2).1 } seekOk).bufferClears =
      t.bufferClears + 1 ∧
    (stream_thread_seek_check
        { t with ctx := (Player_seek (Player_seek t.ctx g ms1).1
            (Player_seek t.ctx g ms1).2 ms2).1 } seekOk).ctx.stream_seeking = false ∧
    stream_thread_seek_check (stream_thread_seek_check
        { t with ctx := (Player_seek (Player_seek t.ctx g ms1).1
            (Player_seek t.ctx g ms1).2 ms2).1 } seekOk) seekOk =
      stream_thread_seek_check
        { t with ctx := (Player_seek (Player_seek t.ctx g ms1).1
            (Player_seek t.ctx g ms1).2 ms2).1 } seekOk := by
  have hclamp : (if (if ms2 < 0 then 0 else ms2) > t.ctx.track_duration_ms
      then t.ctx.track_duration_ms else if ms2 < 0 then 0 else ms2) =
      max 0 (min ms2 t.ctx.track_duration_ms) := by
    split_ifs <;> omega
  simp only [Player_seek, hstream, if_true, stream_thread_seek_check]
  simp only [hclamp]
  split_ifs <;> simp_all

/-- C5 (witness): two seeks to 3000 ms and 7000 ms issued back-to-back;
the single service step seeks the decoder to the 7000 ms frame
(308700 source frames) and clears the buffer once. -/
theorem double_seek_single_service_witness :
    (stream_thread_seek_check
        { tEx with ctx := (Player_seek (Player_seek tEx.ctx gEx 3000).1
            (Player_seek tEx.ctx gEx 3000).2 7000).1 } true).decoderSeeks =
      tEx.decoderSeeks ++ [max 0 (min 7000 tEx.ctx.track_duration_ms) *
        tEx.ctx.stream_decoder.source_sample_rate / 1000] ∧
    (stream_thread_seek_check
        { tEx with ctx := (Player_seek (Player_seek tEx.ctx gEx 3000).1
            (Player_seek tEx.ctx gEx 3000).2 7000).1 } true).bufferClears =
      tEx.bufferClears + 1 ∧
    (stream_thread_seek_check
        { tEx with ctx := (Player_seek (Player_seek tEx.ctx gEx 3000).1
            (Player_seek tEx.ctx gEx 3000).2 7000).1 } true).ctx.stream_seeking = false ∧
    stream_thread_seek_check (stream_thread_seek_check
        { tEx with ctx := (Player_seek (Player_seek tEx.ctx gEx 3000).1
            (Player_seek tEx.ctx gEx 3000).2 7000).1 } true) true =
      stream_thread_seek_check
        { tEx with ctx := (Player_seek (Player_seek tEx.ctx gEx 3000).1
            (Player_seek tEx.ctx gEx 3000).2 7000).1 } true :=
  double_seek_single_service tEx gEx 3000 7000 true (by decide) (by decide)

/-- C8: when the source rate equals the destination rate,
`resample_chunk` is a byte-identical passthrough: it copies
`min input_frames max_output_frames` frames from the input unchanged,
returns that count, and neither invokes nor modifies the resampler state
(the result does not depend on the pipeline function and the returned
state is the argument state). -/
theorem resample_chunk_passthrough {α : Type}
    (src_process_pipeline : α → List Frame → Nat → Int → Int → Nat → Bool → α × List Frame)
    (input : List Frame) (input_frames : Nat) (src_rate dst_rate : Int)
    (max_output_frames : Nat) (src_state : α) (is_last : Bool)
    (h : src_rate = dst_rate) :
    resample_chunk src_process_pipeline input input_frames src_rate dst_rate
        max_output_frames src_state is_last =
      (input.take (min input_frames max_output_frames),
       min input_frames max_output_frames, src_state) := by
  have h2 : (if input_frames < max_output_frames then input_frames
      else max_output_frames) = min input_frames max_output_frames := by
    split_ifs <;> omega
  simp only [resample_chunk, if_pos h, h2]

/-- C8 (witness): a three-frame chunk at 48 kHz on both sides with room
for two output frames passes the first two frames through unchanged and
leaves the (here trivial) resampler state alone. -/
theorem resample_chunk_passthrough_witness :
    resample_chunk (fun (st : Unit) _ _ _ _ _ _ => (st, []))
        [((1 : Int), (2 : Int)), ((3 : Int), (4 : Int)), ((5 : Int), (6 : Int))] 3
        48000 48000 2 () false =
      ([((1 : Int), (2 : Int)), ((3 : Int), (4 : Int)),
        ((5 : Int), (6 : Int))].take (min 3 2), min 3 2, ()) :=
  resample_chunk_passthrough _ _ 3 48000 48000 2 () false (by decide)

/-- C9: whenever the path extension does not map to one of the four
streamable formats (including the tracker formats the player detects but
does not stream, and unknown extensions), or the codec backend fails to
initialize, `Player_load` returns a negative value and no decode thread
is spawned. -/
theorem Player_load_unsupported_fails (env : LoadEnv) (audio_initialized : Bool)
    (filepath : List Char)
    (h : (¬ (Player_detectFormat filepath = AudioFormat.mp3 ∨
            Player_detectFormat filepath = AudioFormat.wav ∨
            Player_detectFormat filepath = AudioFormat.flac ∨
            Player_detectFormat filepath = AudioFormat.ogg)) ∨
         env.openOk (Player_detectFormat filepath) = false) :
    (Player_load env audio_initialized filepath).1 < 0 ∧
    (Player_load env audio_initialized filepath).2 = false := by
  rcases h with h | h
  · simp only [Player_load]
    split_ifs <;> simp_all
  · simp only [Player_load, load_streaming, stream_decoder_open, h]
    split_ifs <;> simp_all

/-- C9 (witness): loading an MP3 path while the MP3 backend init fails
returns -1 without spawning the decode thread. -/
theorem Player_load_unsupported_fails_witness :
    (Player_load loadEnvEx true ("song.mp3".toList)).1 < 0 ∧
    (Player_load loadEnvEx true ("song.mp3".toList)).2 = false :=
  Player_load_unsupported_fails loadEnvEx true ("song.mp3".toList)
    (Or.inr (by decide))

theorem ringReadLoop_eq (ring : List Int) (size idx n : Nat) (h : idx < size) :
    ringReadLoop ring size idx n = (ringSegment ring size idx n, (idx + n) % size) := by
  induction n generalizing idx with
  | zero =>
    simp [ringReadLoop, ringSegment, Nat.mod_eq_of_lt h]
  | succ n ih =>
    have hs : 0 < size := by omega
    rw [ringReadLoop, ih ((idx + 1) % size) (Nat.mod_lt _ hs)]
    simp only [ringSegment, List.range_succ_eq_map, List.map_cons, List.map_map]
    refine congrArg₂ _ (congrArg₂ _ ?_ ?_) ?_
    · simp [Nat.mod_eq_of_lt h]
    · apply List.map_congr_left
      intro i _
      simp only [Function.comp]
      rw [Nat.mod_add_mod]
      have harg : idx + i.succ = idx + 1 + i := by omega
      rw [harg]
    · rw [Nat.mod_add_mod]
      congr 1
      omega

/-- C10: a call `Radio_getAudioSamples buffer max_samples` with
`max_samples >= 0` writes exactly `max_samples` entries: the first
`min max_samples audio_ring_count` samples are the ring content in FIFO
order (consecutive slots from the read index, wrapping modulo the ring
size) and every remaining entry is zero; the function returns the number
of ring samples consumed, the count drops by exactly that number and
never becomes negative, and the read index advances by the consumed
count modulo the ring size. -/
theorem Radio_getAudioSamples_spec (st : RadioRing) (max_samples : Int)
    (hmax : 0 ≤ max_samples) (hcnt : 0 ≤ st.audio_ring_count)
    (hidx : st.audio_ring_read < st.size) :
    (Radio_getAudioSamples st max_samples).1.length = max_samples.toNat ∧
    (Radio_getAudioSamples st max_samples).2.1 =
      min max_samples st.audio_ring_count ∧
    (Radio_getAudioSamples st max_samples).1 =
      ringSegment st.ring st.size st.audio_ring_read
          (min max_samples st.audio_ring_count).toNat ++
        List.replicate
          (max_samples.toNat - (min max_samples st.audio_ring_count).toNat) 0 ∧
    (Radio_getAudioSamples st max_samples).2.2.audio_ring_count =
      st.audio_ring_count - min max_samples st.audio_ring_count ∧
    0 ≤ (Radio_getAudioSamples st max_samples).2.2.audio_ring_count ∧
    (Radio_getAudioSamples st max_samples).2.2.audio_ring_read =
      (st.audio_ring_read +
        (min max_samples st.audio_ring_count).toNat) % st.size := by
  have hm : (if max_samples > st.audio_ring_count then st.audio_ring_count
      else max_samples) = min max_samples st.audio_ring_count := by
    split_ifs <;> omega
  simp only [Radio_getAudioSamples, hm,
    ringReadLoop_eq st.ring st.size st.audio_ring_read _ hidx]
  refine ⟨?_, by trivial, by trivial, by trivial, by omega, by trivial⟩
  simp only [List.length_append, List.length_replicate, ringSegment,
    List.length_map, List.length_range]
  omega

/-- C10 (witness): reading 3 samples from a four-slot ring holding two
unread samples at indices 3 and 0 yields those two samples followed by
one zero, returns 2, empties the ring and moves the read index to 1. -/
theorem Radio_getAudioSamples_spec_witness :
    (Radio_getAudioSamples radioRingEx 3).1.length = (3 : Int).toNat ∧
    (Radio_getAudioSamples radioRingEx 3).2.1 =
      min 3 radioRingEx.audio_ring_count ∧
    (Radio_getAudioSamples radioRingEx 3).1 =
      ringSegment radioRingEx.ring radioRingEx.size radioRingEx.audio_ring_read
          (min 3 radioRingEx.audio_ring_count).toNat ++
        List.replicate
          ((3 : Int).toNat - (min 3 radioRingEx.audio_ring_count).toNat) 0 ∧
    (Radio_getAudioSamples radioRingEx 3).2.2.audio_ring_count =
      radioRingEx.audio_ring_count - min 3 radioRingEx.audio_ring_count ∧
    0 ≤ (Radio_getAudioSamples radioRingEx 3).2.2.audio_ring_count ∧
    (Radio_getAudioSamples radioRingEx 3).2.2.audio_ring_read =
      (radioRingEx.audio_ring_read +
        (min 3 radioRingEx.audio_ring_count).toNat) % radioRingEx.size :=
  Radio_getAudioSamples_spec radioRingEx 3 (by decide) (by decide) (by decide)

theorem isPrefixOf_self_append (l t : List Char) : l.isPrefixOf (l ++ t) = true := by
  induction l with
  | nil => simp [List.isPrefixOf]
  | cons a l ih => simp [List.isPrefixOf, ih]

theorem strstr_here (pat rest : List Char) : strstr (pat ++ rest) pat = some 0 := by
  rw [strstr.eq_def, if_pos (isPrefixOf_self_append pat rest)]

theorem strstr_le (hay pat : List Char) (k : Nat) (h : strstr hay pat = some k) :
    k ≤ hay.length := by
  induction hay generalizing k with
  | nil =>
    rw [strstr.eq_def] at h
    split_ifs at h
    simp_all
  | cons a t ih =>
    rw [strstr.eq_def] at h
    split_ifs at h
    · simp only [Option.some_inj] at h
      omega
    · simp only [Option.map_eq_some'] at h
      obtain ⟨k2, hk2, hk⟩ := h
      have := ih k2 hk2
      simp only [List.length_cons]
      omega

theorem strchrIdx_append (v : List Char) (c : Char) (r : List Char) (h : c ∉ v) :
    strchrIdx (v ++ c :: r) c = some v.length := by
  induction v with
  | nil => simp [strchrIdx]
  | cons a t ih =>
    have ha : ¬ a = c := by simp at h; tauto
    have ht : c ∉ t := by simp at h; tauto
    simp [strchrIdx, ha, ih ht]

/-- C7: parsing an ICY block `StreamTitle='v';` whose value `v` contains
no apostrophe (and fits the metadata buffers) splits `v` at the first
occurrence of the three-character separator: the metadata artist becomes
the part before the separator and the title the part after it; when `v`
contains no separator the whole value becomes the title and the artist
is set to the empty string.  The first-occurrence index is expressed
through `strstr`, the model of the C `strstr` used by the parser. -/
theorem parse_icy_streamtitle (titleCap artistCap : Nat) (v : List Char)
    (md : RadioMetadata)
    (hv : apos ∉ v) (htc : v.length < titleCap) (hac : v.length < artistCap)
    (hlen : 13 + v.length + 2 ≤ 4095) :
    (∀ k, strstr v icySep = some k →
      parse_icy_metadata titleCap artistCap (icyBlock v) md =
        { artist := v.take k, title := v.drop (k + 3) }) ∧
    (strstr v icySep = none →
      parse_icy_metadata titleCap artistCap (icyBlock v) md =
        { artist := [], title := v }) := by
  have hassoc : icyBlock v = icyTitleKey ++ (v ++ apos :: (";".toList)) := by
    simp [icyBlock]
  have hmetalen : (icyBlock v).length = 13 + v.length + 2 := by
    rw [hassoc]
    simp [icyTitleKey]
    omega
  have htake : (icyBlock v).take 4095 = icyBlock v :=
    List.take_of_length_le (by omega)
  have hkey : strstr (icyBlock v) icyTitleKey = some 0 := by
    rw [hassoc]
    exact strstr_here _ _
  have h13 : (0 : Nat) + 13 = icyTitleKey.length := by decide
  have hdrop : (icyBlock v).drop (0 + 13) = v ++ apos :: (";".toList) := by
    rw [hassoc, h13, List.drop_left]
  have hchr : strchrIdx (v ++ apos :: (";".toList)) apos = some v.length :=
    strchrIdx_append v apos _ hv
  have hvalue : (v ++ apos :: (";".toList)).take v.length = v := List.take_left v _
  have htitle0 : v.take (titleCap - 1) = v :=
    List.take_of_length_le (by omega)
  constructor
  · intro k hk
    have hkle : k ≤ v.length := strstr_le v icySep k hk
    simp only [parse_icy_metadata, htake, hkey, hdrop, hchr, hvalue, htitle0, hk]
    have hartist : (v.take k).take (artistCap - 1) = v.take k :=
      List.take_of_length_le (by simp [List.length_take]; omega)
    rw [hartist]
  · intro hk
    simp only [parse_icy_metadata, htake, hkey, hdrop, hchr, hvalue, htitle0, hk]

/-- C7 (witness): the block `StreamTitle='Artist Name - Song Title';`
yields artist `Artist Name` (the 11 characters before the first
separator) and title `Song Title` (the characters after it). -/
theorem parse_icy_streamtitle_witness :
    strstr icyValueEx icySep = some 11 ∧
    parse_icy_metadata 256 256 (icyBlock icyValueEx)
        { title := [], artist := [] } =
      { artist := icyValueEx.take 11, title := icyValueEx.drop (11 + 3) } :=
  ⟨by decide,
   (parse_icy_streamtitle 256 256 icyValueEx { title := [], artist := [] }
     (by decide) (by decide) (by decide) (by decide)).1 11 (by decide)⟩

/-- C6 (counterexample): `fetch_url_content` — the redirect-following
used by the radio engine for every HLS playlist and segment fetch —
happily follows a chain of 6 redirects (more than 5 hops) and returns
the final body instead of stopping with an error: its recursion carries
no hop counter at all, so the claimed engine-wide 5-hop cap does not
hold for these fetches. -/
theorem fetch_url_content_uncapped_counterexample :
    fetch_url_content (chainEnv 6 [(42 : Int)]) 16 0 = some [(42 : Int)] ∧
    fetch_url_content (chainEnv 6 [(42 : Int)]) 16 0 ≠ none := by
  constructor <;> decide

theorem radio_play_direct_go_all_redirect (attempt : Nat → ConnectAttempt)
    (h : ∀ k, k ≤ max_redirects →
      ∃ url, url ≠ [] ∧ attempt k = ConnectAttempt.headers (HeaderResult.redirect url)) :
    ∀ fuel rc, rc + fuel = max_redirects + 1 → rc ≤ max_redirects →
      radio_play_direct_go attempt fuel rc =
        RadioPlayOutcome.error RadioErr.tooManyRedirects := by
  intro fuel
  induction fuel with
  | zero => intro rc h1 h2; omega
  | succ fuel ih =>
    intro rc h1 h2
    obtain ⟨url, hne, hatt⟩ := h rc h2
    rw [radio_play_direct_go, hatt]
    dsimp only
    split_ifs with hurl hmax
    · exact absurd hurl hne
    · rfl
    · exact ih (rc + 1) (by omega) (by omega)

theorem radio_play_direct_go_streaming_le (attempt : Nat → ConnectAttempt) :
    ∀ fuel rc k, rc ≤ max_redirects →
      radio_play_direct_go attempt fuel rc = RadioPlayOutcome.streaming k →
      k ≤ max_redirects := by
  intro fuel
  induction fuel with
  | zero => intro rc k h1 h2; simp [radio_play_direct_go] at h2
  | succ fuel ih =>
    intro rc k h1 h2
    rw [radio_play_direct_go] at h2
    rcases hatt : attempt rc with _ | hr
    · rw [hatt] at h2; simp at h2
    · rcases hr with _ | url | _ <;> rw [hatt] at h2
      · simp at h2; omega
      · dsimp only at h2
        split_ifs at h2 with hurl hmax
        any_goals exact ih (rc + 1) k (by omega) h2
      · simp at h2

theorem fetch_url_content_chain (n : Nat) (d : List Int) :
    ∀ fuel u, u ≤ n → n - u < fuel →
      fetch_url_content (chainEnv n d) fuel u = some d := by
  intro fuel
  induction fuel with
  | zero => intro u h1 h2; omega
  | succ fuel ih =>
    intro u h1 h2
    rw [fetch_url_content]
    rcases Nat.lt_or_ge u n with hu | hu
    · have : chainEnv n d u = FetchResp.redirect (u + 1) := by
        simp [chainEnv, hu]
      rw [this]
      exact ih (u + 1) (by omega) (by omega)
    · have hun : u = n := by omega
      have : chainEnv n d u = FetchResp.content d := by
        simp [chainEnv, hun]
      rw [this]

/-- C6 (amended): the 5-hop redirect cap holds for the direct-stream
connection path of `Radio_play`: a chain of more than 5 redirects makes
the loop stop after the 5th followed redirect and set the Error state
with the `Too many redirects` message, with no automatic retry, and any
successful connection has followed at most 5 redirects.  The cap does
NOT extend to the HLS playlist and segment fetches: `fetch_url_content`
follows a redirect chain of any length n to completion (its recursion
has no hop counter; the fuel argument merely makes the unbounded C
recursion expressible and the result holds for every sufficiently large
fuel). -/
theorem radio_redirect_cap_amended :
    (∀ attempt : Nat → ConnectAttempt,
      (∀ k, k ≤ max_redirects →
        ∃ url, url ≠ [] ∧ attempt k = ConnectAttempt.headers (HeaderResult.redirect url)) →
      Radio_play_direct attempt = RadioPlayOutcome.error RadioErr.tooManyRedirects) ∧
    (∀ attempt : Nat → ConnectAttempt, ∀ k,
      Radio_play_direct attempt = RadioPlayOutcome.streaming k → k ≤ max_redirects) ∧
    (∀ (n : Nat) (d : List Int) (fuel : Nat), n < fuel →
      fetch_url_content (chainEnv n d) fuel 0 = some d) := by
  refine ⟨?_, ?_, ?_⟩
  · intro attempt h
    exact radio_play_direct_go_all_redirect attempt h (max_redirects + 1) 0 (by omega)
      (by omega)
  · intro attempt k h
    exact radio_play_direct_go_streaming_le attempt (max_redirects + 1) 0 k (by omega) h
  · intro n d fuel h
    exact fetch_url_content_chain n d fuel 0 (by omega) (by omega)

/-- C6 (witness): with every attempt answering a redirect, the direct
path errors with the too-many-redirects exit, and a 6-hop chain is
followed to completion by the HLS fetch helper. -/
theorem radio_redirect_cap_amended_witness :
    Radio_play_direct (fun _ => ConnectAttempt.headers
        (HeaderResult.redirect ("x".toList))) =
      RadioPlayOutcome.error RadioErr.tooManyRedirects ∧
    fetch_url_content (chainEnv 6 [(7 : Int)]) 7 0 = some [(7 : Int)] :=
  ⟨radio_redirect_cap_amended.1 _ (fun k _ => ⟨"x".toList, by decide, rfl⟩),
   radio_redirect_cap_amended.2.2 6 [(7 : Int)] 7 (by decide)⟩

/-- C1: when the radio is not active and the try-lock on the player
mutex fails, the callback writes exactly `len` bytes of zero samples —
an all-zero buffer of exactly the requested length, never a torn or
partial write — and returns with the player context, the globals and the
radio ring untouched.  (`len` is a multiple of the 4-byte stereo frame
size in every SDL invocation; the divisibility hypothesis ties the
slot count back to exactly `len` bytes.) -/
theorem audio_callback_trylock_silence (radioState : RadioState) (rr : RadioRing)
    (lockOk visLockOk : Bool) (scale : Int → Int) (ctx : PlayerCtx) (g : Globals)
    (old : List Int) (len : Nat)
    (hradio : Radio_isActive radioState = false) (hlock : lockOk = false)
    (hlen : 2 ∣ len) :
    audio_callback radioState rr lockOk visLockOk scale ctx g old len =
      { stream := List.replicate (len / 2) 0, ctx := ctx, g := g, radio := rr } ∧
    2 * (audio_callback radioState rr lockOk visLockOk scale ctx g old len).stream.length
      = len := by
  have h : audio_callback radioState rr lockOk visLockOk scale ctx g old len =
      { stream := List.replicate (len / 2) 0, ctx := ctx, g := g, radio := rr } := by
    simp only [audio_callback, hradio, hlock]
    rfl
  refine ⟨h, ?_⟩
  rw [h]
  simp only [List.length_replicate]
  omega

/-- C1 (witness): a 16-byte callback under radio-stopped state and a
failed try-lock emits eight zero samples (16 bytes) and changes
nothing. -/
theorem audio_callback_trylock_silence_witness :
    audio_callback RadioState.stopped radioRingEmptyEx false true (fun s => s)
        ctxEx gEx [(5 : Int), (6 : Int), (7 : Int), (8 : Int)] 16 =
      { stream := List.replicate (16 / 2) 0, ctx := ctxEx, g := gEx
        radio := radioRingEmptyEx } ∧
    2 * (audio_callback RadioState.stopped radioRingEmptyEx false true (fun s => s)
        ctxEx gEx [(5 : Int), (6 : Int), (7 : Int), (8 : Int)] 16).stream.length = 16 :=
  audio_callback_trylock_silence RadioState.stopped radioRingEmptyEx false true
    (fun s => s) ctxEx gEx [(5 : Int), (6 : Int), (7 : Int), (8 : Int)] 16
    (by decide) rfl (by decide)
